import Mathlib

/-!
Verification development for the model-building stage of the
BatchSparkScoringPredictiveMaintenance repository
(notebooks/2b_model_building.ipynb), shallowly embedded in Lean 4.

The notebook loads a labeled feature table, assembles feature columns into a
vector column, fits a label indexer and a vector (feature) indexer, selects a
decision-tree or random-forest classifier configuration, fits the pipeline and
persists it with overwrite semantics at a path derived from the model-type
token.  The time-aware split and the label-censoring rule are applied by the
caller (the feature-engineering notebook that materializes the training table,
which is not part of the embedded source); those two operations are modelled
from the specification and are marked as such in their doc comments.
-/

namespace PdMTrain

/-! ## Data model: cell values and data frames -/

/-- A cell value of the tabular dataset: a numeric value, a string value, or an
assembled feature vector (the derived column produced by the vector
assembler). -/
inductive Val where
  | num : Rat → Val
  | str : String → Val
  | vec : List Val → Val

/-- A data frame: an ordered list of column names and rows, each row an ordered
list of cell values aligned with the column list. -/
structure DataFrame where
  cols : List String
  rows : List (List Val)

/-- Look up the cell of row `r` at column `c`, given the frame's column list
(`none` when the column is absent or the row is too short). -/
def cellOf (cols : List String) (r : List Val) (c : String) : Option Val :=
  r[cols.indexOf c]?

/-- Total variant of `cellOf` used where the notebook's operations only touch
columns that are present (defaults to the numeric zero otherwise). -/
def cellD (cols : List String) (r : List Val) (c : String) : Val :=
  (cellOf cols r c).getD (Val.num 0)

/-! ## Feature-column selection (notebook cell 6) -/

/-- The label column list: `label_var = ['label_e']`. -/
def label_var : List String := ["label_e"]

/-- The key columns: `key_cols = ['machineID','dt_truncated']`. -/
def key_cols : List String := ["machineID", "dt_truncated"]

/-- The exclusion list
`remove_names = label_var + key_cols + ['failure','model_encoded','model']`. -/
def remove_names : List String :=
  label_var ++ key_cols ++ ["failure", "model_encoded", "model"]

/-- Remaining feature columns:
`input_features = [x for x in input_features if x not in set(remove_names)]`,
starting from `train_data.columns`, hence a column-order-preserving filter. -/
def input_features (cols : List String) : List String :=
  cols.filter (fun x => !remove_names.contains x)

/-! ## Vector assembler and the select that follows it (notebook cell 8) -/

/-- One row after the vector assembler: the original cells with the assembled
`features` vector appended, built from exactly the `input_features` columns in
their column order. -/
def assembleRow (cols : List String) (r : List Val) : List Val :=
  r ++ [Val.vec ((input_features cols).map (cellD cols r))]

/-- `va.transform(train_data)`: append a derived `features` column holding, for
each row, the vector of that row's `input_features` values in column order. -/
def vaTransform (df : DataFrame) : DataFrame :=
  { cols := df.cols ++ ["features"]
    rows := df.rows.map (assembleRow df.cols) }

/-- `.select(...)`: project the frame onto the named columns, in that order. -/
def selectCols (names : List String) (df : DataFrame) : DataFrame :=
  { cols := names
    rows := df.rows.map (fun r => names.map (cellD df.cols r)) }

/-- The dataset that flows on to indexing and model fitting:
`train_data = va.transform(train_data).select('machineID','dt_truncated','label_e','features')`. -/
def preparedData (df : DataFrame) : DataFrame :=
  selectCols ["machineID", "dt_truncated", "label_e", "features"] (vaTransform df)

/-! ## Label indexer (StringIndexer, notebook cell 8) -/

/-- Fit of the label indexer over the label column of the dataset it is given:
the distinct label values ordered by descending frequency (a stable sort, so
the order — ties included — is a deterministic function of the input list).
The index assigned to a label is its position in this list. -/
def labelIndexerFit (labels : List String) : List String :=
  labels.dedup.insertionSort (fun a b => labels.count b ≤ labels.count a)

/-- The dense integer index the fitted label indexer assigns to a label. -/
def labelToIndex (labels : List String) (s : String) : Nat :=
  (labelIndexerFit labels).indexOf s

/-! ## Feature indexer (VectorIndexer with maxCategories = 10, notebook cell 8) -/

/-- `maxCategories=10`: features with more than 10 distinct values are treated
as continuous. -/
def maxCategories : Nat := 10

/-- Fit of the feature indexer on one feature slot: when the slot has at most
`maxCategories` distinct values it is categorical and gets a category-to-index
map (the list of distinct values; a category's index is its position),
otherwise it is continuous and passes through (`none`). -/
def featureIndexerFitCol (vals : List Rat) : Option (List Rat) :=
  if vals.dedup.length ≤ maxCategories then some vals.dedup else none

/-- The values appearing in feature slot `j` across a list of feature
vectors. -/
def colValues (vecs : List (List Rat)) (j : Nat) : List Rat :=
  vecs.filterMap (fun v => v[j]?)

/-- Fit of the feature indexer over all feature slots. -/
def featureIndexerFit (vecs : List (List Rat)) (numFeatures : Nat) :
    List (Option (List Rat)) :=
  (List.range numFeatures).map (fun j => featureIndexerFitCol (colValues vecs j))

/-! ## Model selector (notebook cell 10) -/

/-- The hyperparameters shared by both tree-based classifiers. -/
structure TreeParams where
  maxDepth : Nat
  maxBins : Nat
  minInstancesPerNode : Nat
  minInfoGain : Rat
  impurity : String
deriving DecidableEq

/-- A classifier configuration: a single decision tree, or a random-forest
ensemble with its extra ensemble hyperparameters.  The boosting variant is
commented out in the source (binary-only, this task is multiclass) and so has
no constructor here. -/
inductive ModelConfig where
  | decisionTree (params : TreeParams)
  | randomForest (params : TreeParams) (numTrees : Nat)
      (featureSubsetStrategy : String) (subsamplingRate : Rat)
deriving DecidableEq

/-- The model-selection branch of the notebook:
`if model_type == 'DecisionTree': model = DecisionTreeClassifier(...)` with
maxDepth 15, maxBins 32, minInstancesPerNode 1, minInfoGain 0.0 and Gini
impurity; otherwise (the `else` branch, hit by every other token)
`model = RandomForestClassifier(...)` with the same tree hyperparameters plus
numTrees 200, featureSubsetStrategy "sqrt" and subsamplingRate 0.632. -/
def selectModel (model_type : String) : ModelConfig :=
  if model_type == "DecisionTree" then
    ModelConfig.decisionTree ⟨15, 32, 1, 0, "gini"⟩
  else
    ModelConfig.randomForest ⟨15, 32, 1, 0, "gini"⟩ 200 "sqrt" 0.632

/-! ## Time-aware split and censoring (dataset preparation policy)

The notebook fits on the table the caller materialized
(`training = train_data` after loading `training_data`); the cutoff split and
the censoring rule are applied by the caller (the feature-engineering
notebook), which is not part of the embedded source.  These two operations are
therefore modelled from the specification. -/

/-- One observation of the labeled feature table: machine key, truncated
timestamp (in days), multiclass failure label (0 means no failure, 1-4 the
failing component) and the numeric feature values. -/
structure Obs where
  machineID : Nat
  dt_truncated : Int
  label_e : Nat
  feats : List Rat
deriving DecidableEq

/-- The non-failure label class. -/
def nonFailureLabel : Nat := 0

/-- The censoring window: 7 days immediately preceding the split cutoff. -/
def censorWindowDays : Int := 7

/-- Modelled from the spec: the label-censoring rule applied by the caller
(missing from the embedded source, which only loads the prepared table) —
an observation whose timestamp lies within the censoring window immediately
preceding the cutoff `T` has its label forcibly reset to the non-failure
class, because its true future-failure status is unobservable at train time. -/
def censorObs (T : Int) (o : Obs) : Obs :=
  if T - censorWindowDays < o.dt_truncated ∧ o.dt_truncated ≤ T then
    { o with label_e := nonFailureLabel }
  else o

/-- Modelled from the spec: censoring applied to a whole dataset. -/
def censorLabels (T : Int) (ds : List Obs) : List Obs :=
  ds.map (censorObs T)

/-- Modelled from the spec: time-aware split — given the cutoff `T`, the rows
with timestamp at most `T` form the training pool. -/
def trainingPool (T : Int) (ds : List Obs) : List Obs :=
  ds.filter (fun o => decide (o.dt_truncated ≤ T))

/-- Modelled from the spec: the rows with timestamp after `T` form the
held-out pool, consumed by the external evaluation collaborator. -/
def heldOutPool (T : Int) (ds : List Obs) : List Obs :=
  ds.filter (fun o => decide (T < o.dt_truncated))

/-! ## Training pipeline (notebook cells 8 and 10) -/

/-- The trained pipeline: indexer metadata plus the fitted model configuration
and the dataset the model-fitting step ran on. -/
structure TrainedPipeline where
  labelMap : List String
  featureMeta : List (Option (List Rat))
  modelCfg : ModelConfig
  fitData : List Obs
deriving DecidableEq

/-- The label column of a dataset, as the strings the label indexer sees. -/
def obsLabels (ds : List Obs) : List String :=
  ds.map (fun o => toString o.label_e)

/-- The assembled feature vectors of a dataset. -/
def obsFeats (ds : List Obs) : List (List Rat) :=
  ds.map (fun o => o.feats)

/-- The end-to-end training flow: both indexers are fit over the full
(censored) dataset — `fit on whole dataset to include all labels in index` in
the source — while the model-fitting step runs on the training pool of rows
with timestamp at most the cutoff `T`. -/
def trainFlow (model_type : String) (T : Int) (ds : List Obs) : TrainedPipeline :=
  let full := censorLabels T ds
  { labelMap := labelIndexerFit (obsLabels full)
    featureMeta := featureIndexerFit (obsFeats full) (((obsFeats full).headD []).length)
    modelCfg := selectModel model_type
    fitData := trainingPool T full }

/-! ## Model artifact store (notebook cell 12) -/

/-- The artifact path:
`"dbfs:/storage/models/" + model_type + ".pqt"` — a function of the
model-type token alone. -/
def savePath (model_type : String) : String :=
  "dbfs:/storage/models/" ++ model_type ++ ".pqt"

/-- The artifact store, as a map from paths to stored pipelines. -/
def Store : Type := String → Option TrainedPipeline

/-- `write().overwrite().save(path)`: store the artifact at the given path,
replacing whatever was there. -/
def saveOverwrite (store : Store) (key : String) (artifact : TrainedPipeline) : Store :=
  fun k => if k = key then some artifact else store k

/-- Persist the trained pipeline at the path derived from the model-type
token, with overwrite semantics. -/
def persistPipeline (store : Store) (model_type : String) (p : TrainedPipeline) : Store :=
  saveOverwrite store (savePath model_type) p

/-! ## Concrete example data used by witnesses and counterexamples -/

/-- A small concrete frame with one feature column (`volt`) besides the label
and key columns. -/
def dfEx : DataFrame :=
  ⟨["machineID", "dt_truncated", "label_e", "volt"],
   [[Val.num 1, Val.num 0, Val.num 0, Val.num 7]]⟩

/-- A frame with two feature columns and one row. -/
def dfRowsA : DataFrame :=
  ⟨["machineID", "dt_truncated", "label_e", "volt", "rotate"],
   [[Val.num 1, Val.num 0, Val.num 0, Val.num 7, Val.num 8]]⟩

/-- A frame with the same columns as `dfRowsA` but different row contents. -/
def dfRowsB : DataFrame :=
  ⟨["machineID", "dt_truncated", "label_e", "volt", "rotate"],
   [[Val.num 2, Val.num 1, Val.num 1, Val.num 5, Val.num 6]]⟩

/-! ## Theorems -/

/-- C3: for every model-type token that is not `"DecisionTree"` — including
the empty string, unknown strings and `"GBTClassifier"` — the selector returns
the random-forest configuration with its default hyperparameters, and every
token resolves to one of the two configurations (no token raises). -/
theorem selector_default_fallback (t : String) (h : t ≠ "DecisionTree") :
    selectModel t = ModelConfig.randomForest ⟨15, 32, 1, 0, "gini"⟩ 200 "sqrt" 0.632
  ∧ ∀ s : String,
      selectModel s = ModelConfig.decisionTree ⟨15, 32, 1, 0, "gini"⟩
    ∨ selectModel s = ModelConfig.randomForest ⟨15, 32, 1, 0, "gini"⟩ 200 "sqrt" 0.632 := by
  constructor
  · simp [selectModel, h]
  · intro s
    by_cases hs : s = "DecisionTree"
    · exact Or.inl (by simp [selectModel, hs])
    · exact Or.inr (by simp [selectModel, hs])

/-- Witness for C3 at the concrete tokens `"GBTClassifier"` and `""`. -/
theorem selector_default_fallback_witness :
    selectModel "GBTClassifier"
      = ModelConfig.randomForest ⟨15, 32, 1, 0, "gini"⟩ 200 "sqrt" 0.632
  ∧ selectModel "" = ModelConfig.randomForest ⟨15, 32, 1, 0, "gini"⟩ 200 "sqrt" 0.632 :=
  ⟨(selector_default_fallback "GBTClassifier" (by decide)).1,
   (selector_default_fallback "" (by decide)).1⟩

/-- C4: the configuration built for each recognized token (`"DecisionTree"`
and `"RandomForest"`) carries exactly max depth 15, max bins 32, minimum
instances per leaf 1, minimum information gain 0, Gini impurity, and for the
ensemble additionally 200 trees, the square-root feature-subset strategy and
per-tree subsampling fraction 0.632. -/
theorem selector_hyperparameters :
    selectModel "DecisionTree"
      = ModelConfig.decisionTree
          { maxDepth := 15, maxBins := 32, minInstancesPerNode := 1,
            minInfoGain := 0, impurity := "gini" }
  ∧ selectModel "RandomForest"
      = ModelConfig.randomForest
          { maxDepth := 15, maxBins := 32, minInstancesPerNode := 1,
            minInfoGain := 0, impurity := "gini" }
          200 "sqrt" 0.632
  ∧ (0.632 : Rat) = 79 / 125 := by
  refine ⟨by simp [selectModel], by simp [selectModel], by norm_num⟩

/-- C5: the artifact path is the deterministic function
`"dbfs:/storage/models/" ++ token ++ ".pqt"` of the token alone, and saving
has overwrite semantics — saving the same pipeline twice to the same key, or
saving over any prior artifact at that key, leaves exactly the store produced
by one save, and reading the key back yields the saved pipeline. -/
theorem artifact_path_and_overwrite (store : Store) (t : String) (p q : TrainedPipeline) :
    savePath t = "dbfs:/storage/models/" ++ t ++ ".pqt"
  ∧ persistPipeline (persistPipeline store t p) t p = persistPipeline store t p
  ∧ persistPipeline (persistPipeline store t q) t p = persistPipeline store t p
  ∧ persistPipeline store t p (savePath t) = some p := by
  have hover : ∀ (s : Store) (a b : TrainedPipeline),
      persistPipeline (persistPipeline s t a) t b = persistPipeline s t b := by
    intro s a b
    funext k
    by_cases hk : k = savePath t <;> simp [persistPipeline, saveOverwrite, hk]
  exact ⟨rfl, hover store p p, hover store q p, by simp [persistPipeline, saveOverwrite]⟩

/-- C6: the assembled feature set is exactly the dataset's columns minus the
exclusion list {label_e, machineID, dt_truncated, failure, model_encoded,
model}, in the dataset's original column order (it is an order-preserving
sublist), and it depends only on the column sequence: two frames with the same
columns give the same feature-column ordering whatever their rows. -/
theorem assembler_feature_columns (cols : List String) (df1 df2 : DataFrame) :
    remove_names = ["label_e", "machineID", "dt_truncated", "failure", "model_encoded", "model"]
  ∧ (input_features cols).Sublist cols
  ∧ (∀ x, x ∈ input_features cols ↔ x ∈ cols ∧ x ∉ remove_names)
  ∧ (df1.cols = df2.cols → input_features df1.cols = input_features df2.cols) := by
  refine ⟨rfl, List.filter_sublist cols, ?_, ?_⟩
  · intro x
    simp [input_features, List.mem_filter, List.elem_iff]
  · intro h
    rw [h]

/-- Witness for C6: two concrete frames with equal column sequences but
different rows get the same feature ordering, and `volt` is a feature column
of the first. -/
theorem assembler_feature_columns_witness :
    input_features dfRowsA.cols = input_features dfRowsB.cols
  ∧ ("volt" ∈ input_features dfRowsA.cols ↔ "volt" ∈ dfRowsA.cols ∧ "volt" ∉ remove_names) :=
  ⟨(assembler_feature_columns dfRowsA.cols dfRowsA dfRowsB).2.2.2 rfl,
   (assembler_feature_columns dfRowsA.cols dfRowsA dfRowsB).2.2.1 "volt"⟩

/-- C7: the fitted label indexer lists exactly the distinct label values of
the dataset it is fit on (dense indices: no duplicates, every present label
gets an index below the list length), ordered by descending frequency; the fit
is deterministic, and in the training flow the label indexer is fit over the
full (censored) dataset, not the training split. -/
theorem label_indexer_full_fit (labels : List String) (mt : String) (T : Int) (ds : List Obs) :
    (∀ s, s ∈ labelIndexerFit labels ↔ s ∈ labels)
  ∧ (labelIndexerFit labels).Nodup
  ∧ List.Pairwise (fun a b => labels.count b ≤ labels.count a) (labelIndexerFit labels)
  ∧ (∀ s, s ∈ labels → labelToIndex labels s < (labelIndexerFit labels).length)
  ∧ labelIndexerFit labels = labelIndexerFit labels
  ∧ (trainFlow mt T ds).labelMap = labelIndexerFit (obsLabels (censorLabels T ds)) := by
  have hperm : List.Perm (labelIndexerFit labels) labels.dedup :=
    List.perm_insertionSort _ _
  have hmem : ∀ s, s ∈ labelIndexerFit labels ↔ s ∈ labels := by
    intro s
    rw [hperm.mem_iff, List.mem_dedup]
  refine ⟨hmem, hperm.nodup_iff.mpr (List.nodup_dedup labels), ?_, ?_, rfl, rfl⟩
  · haveI : IsTotal String (fun a b => labels.count b ≤ labels.count a) :=
      ⟨fun a b => Nat.le_total (labels.count b) (labels.count a)⟩
    haveI : IsTrans String (fun a b => labels.count b ≤ labels.count a) :=
      ⟨fun _ _ _ h1 h2 => le_trans h2 h1⟩
    exact List.sorted_insertionSort _ _
  · intro s hs
    exact List.indexOf_lt_length.mpr ((hmem s).mpr hs)

/-- Witness for C7 on the concrete label column `["0", "1", "0"]`. -/
theorem label_indexer_full_fit_witness :
    labelToIndex ["0", "1", "0"] "1" < (labelIndexerFit ["0", "1", "0"]).length :=
  (label_indexer_full_fit ["0", "1", "0"] "RandomForest" 0 []).2.2.2.1 "1" (by decide)

/-- C8: a feature slot is classified categorical exactly when it has at most
`maxCategories = 10` distinct values in the data the indexer is fit on — in
which case its category map holds exactly those distinct values — and is
continuous (pass-through, no map) when it has more than 10 distinct values;
the whole-vector fit applies this per slot. -/
theorem feature_indexer_threshold (vals : List Rat) :
    ((featureIndexerFitCol vals).isSome ↔ vals.dedup.length ≤ maxCategories)
  ∧ (∀ m, featureIndexerFitCol vals = some m → ((∀ x, x ∈ m ↔ x ∈ vals) ∧ m.Nodup))
  ∧ (maxCategories < vals.dedup.length → featureIndexerFitCol vals = none)
  ∧ (∀ (vecs : List (List Rat)) (numFeatures j : Nat), j < numFeatures →
      (featureIndexerFit vecs numFeatures)[j]?
        = some (featureIndexerFitCol (colValues vecs j))) := by
  refine ⟨?_, ?_, ?_, ?_⟩
  · by_cases h : vals.dedup.length ≤ maxCategories <;> simp [featureIndexerFitCol, h]
  · intro m hm
    by_cases h : vals.dedup.length ≤ maxCategories
    · rw [featureIndexerFitCol, if_pos h] at hm
      obtain rfl : vals.dedup = m := Option.some_injective _ hm
      exact ⟨fun x => List.mem_dedup, List.nodup_dedup vals⟩
    · rw [featureIndexerFitCol, if_neg h] at hm
      exact absurd hm (by simp)
  · intro h
    rw [featureIndexerFitCol, if_neg (Nat.not_le.mpr h)]
  · intro vecs numFeatures j hj
    simp [featureIndexerFit, List.getElem?_map, List.getElem?_range, hj]

/-- Witness for C8: a three-value slot with two distinct values is categorical
with map {1, 2}; an eleven-distinct-value slot is continuous. -/
theorem feature_indexer_threshold_witness :
    ((1 : Rat) ∈ [(1 : Rat), 2] ↔ (1 : Rat) ∈ [(1 : Rat), 2, 2])
  ∧ featureIndexerFitCol [(0 : Rat), 1, 2, 3, 4, 5, 6, 7, 8, 9, 10] = none :=
  ⟨((feature_indexer_threshold [(1 : Rat), 2, 2]).2.1 [(1 : Rat), 2] (by decide)).1 1,
   (feature_indexer_threshold [(0 : Rat), 1, 2, 3, 4, 5, 6, 7, 8, 9, 10]).2.2.1 (by decide)⟩

/-- Censoring never changes an observation's timestamp. -/
theorem censorObs_dt (T : Int) (o : Obs) :
    (censorObs T o).dt_truncated = o.dt_truncated := by
  unfold censorObs
  split <;> rfl

/-- C1: every row of the data the model-fitting step runs on whose timestamp
lies within the 7-day censoring window immediately before the cutoff `T`
carries the non-failure label — its effective training label is never a
failure class. -/
theorem censoring_invariant (mt : String) (T : Int) (ds : List Obs) (o : Obs)
    (h1 : o ∈ (trainFlow mt T ds).fitData)
    (h2 : T - censorWindowDays < o.dt_truncated) :
    o.label_e = nonFailureLabel := by
  have hmem : o ∈ censorLabels T ds ∧ o.dt_truncated ≤ T := by
    simpa [trainFlow, trainingPool, List.mem_filter] using h1
  obtain ⟨hin, hle⟩ := hmem
  obtain ⟨o', _, hcase⟩ := List.mem_map.mp hin
  subst hcase
  by_cases hc : T - censorWindowDays < o'.dt_truncated ∧ o'.dt_truncated ≤ T
  · simp [censorObs, hc, nonFailureLabel]
  · exact absurd ⟨by simpa [censorObs_dt] using h2, by simpa [censorObs_dt] using hle⟩ hc

/-- Witness for C1: with cutoff 10, the observation at day 8 (inside the
window (3, 10]) reaches the fitting step with its failure label 3 reset to the
non-failure class. -/
theorem censoring_invariant_witness :
    (⟨1, 8, 0, []⟩ : Obs) ∈ (trainFlow "RandomForest" 10 [⟨1, 8, 3, []⟩]).fitData
  ∧ (10 : Int) - censorWindowDays < (⟨1, 8, 0, []⟩ : Obs).dt_truncated
  ∧ (⟨1, 8, 0, []⟩ : Obs).label_e = nonFailureLabel :=
  ⟨by decide, by decide,
   censoring_invariant "RandomForest" 10 [⟨1, 8, 3, []⟩] ⟨1, 8, 0, []⟩ (by decide) (by decide)⟩

/-- C2: the data the model-fitting step runs on is exactly the rows of the
full (censored) dataset with timestamp at most the cutoff `T`; rows with
timestamp after `T` form the held-out pool and never reach fitting; the label
and feature indexers, by contrast, are fit over the full dataset. -/
theorem time_split_training_pool (mt : String) (T : Int) (ds : List Obs) (o : Obs) :
    (o ∈ (trainFlow mt T ds).fitData ↔ o ∈ censorLabels T ds ∧ o.dt_truncated ≤ T)
  ∧ (o ∈ heldOutPool T (censorLabels T ds) ↔ o ∈ censorLabels T ds ∧ T < o.dt_truncated)
  ∧ ¬(o ∈ (trainFlow mt T ds).fitData ∧ T < o.dt_truncated)
  ∧ (trainFlow mt T ds).labelMap = labelIndexerFit (obsLabels (censorLabels T ds))
  ∧ (trainFlow mt T ds).featureMeta
      = featureIndexerFit (obsFeats (censorLabels T ds))
          (((obsFeats (censorLabels T ds)).headD []).length) := by
  refine ⟨?_, ?_, ?_, rfl, rfl⟩
  · simp [trainFlow, trainingPool, List.mem_filter]
  · simp [heldOutPool, List.mem_filter]
  · rintro ⟨hmem, hgt⟩
    have h : o ∈ censorLabels T ds ∧ o.dt_truncated ≤ T := by
      simpa [trainFlow, trainingPool, List.mem_filter] using hmem
    exact absurd hgt (not_lt.mpr h.2)

/-- Witness for C2: with cutoff 20, the censored observation at day 15 is in
the fitting data, and the membership characterization holds at it. -/
theorem time_split_training_pool_witness :
    (⟨2, 15, 0, []⟩ : Obs) ∈ (trainFlow "DecisionTree" 20 [⟨2, 15, 1, []⟩]).fitData :=
  ((time_split_training_pool "DecisionTree" 20 [⟨2, 15, 1, []⟩] ⟨2, 15, 0, []⟩).1).mpr
    ⟨by decide, by decide⟩

/-- C9 counterexample: the claim that every original column still flows on to
indexing and fitting is false — `volt` is a column of the concrete input frame
but is not a column of the frame the notebook passes on (it projects onto
machineID, dt_truncated, label_e and the assembled features). -/
theorem frame_columns_not_retained :
    "volt" ∈ dfEx.cols ∧ "volt" ∉ (preparedData dfEx).cols := by
  exact ⟨by decide, by decide⟩

/-- C9 amended: the assembler's transform itself only appends the derived
`features` column — all original columns are retained with unchanged cell
values — but the dataset that flows on to indexing and model fitting is the
subsequent projection onto exactly machineID, dt_truncated, label_e and
features, so the other original columns are dropped downstream. -/
theorem assembler_transform_then_project (df : DataFrame) (r : List Val) (c : String)
    (hc : c ∈ df.cols) (hlen : r.length = df.cols.length) :
    (vaTransform df).cols = df.cols ++ ["features"]
  ∧ (vaTransform df).rows = df.rows.map (assembleRow df.cols)
  ∧ cellOf (vaTransform df).cols (assembleRow df.cols r) c = cellOf df.cols r c
  ∧ (preparedData df).cols = ["machineID", "dt_truncated", "label_e", "features"] := by
  refine ⟨rfl, rfl, ?_, rfl⟩
  show (assembleRow df.cols r)[(df.cols ++ ["features"]).indexOf c]?
      = r[df.cols.indexOf c]?
  rw [List.indexOf_append_of_mem hc]
  unfold assembleRow
  exact List.getElem?_append_left (by rw [hlen]; exact List.indexOf_lt_length.mpr hc)

/-- Witness for C9's amended statement on the concrete frame `dfEx` at its
`volt` column. -/
theorem assembler_transform_then_project_witness :
    cellOf (vaTransform dfEx).cols
        (assembleRow dfEx.cols [Val.num 1, Val.num 0, Val.num 0, Val.num 7]) "volt"
      = cellOf dfEx.cols [Val.num 1, Val.num 0, Val.num 0, Val.num 7] "volt"
  ∧ (preparedData dfEx).cols = ["machineID", "dt_truncated", "label_e", "features"] := by
  have h := assembler_transform_then_project dfEx
    [Val.num 1, Val.num 0, Val.num 0, Val.num 7] "volt" (by decide) (by decide)
  exact ⟨h.2.2.1, h.2.2.2⟩

end PdMTrain
